import Mathlib

/-!
Verification development for the socket client challenge app.

The subject is the `ChallengeConnection` class: the connection manager that
owns the socket lifecycle, the heartbeat watchdog timer, the pending-request
correlation table and the reset/reconnect cycle.  The JavaScript source is
shallowly embedded below:

* JavaScript/JSON values as seen by the client are modelled by `JVal`
  (objects are association lists; reading a property of a value that has no
  such property yields `none`, mirroring `undefined`).
* The pending request table rows `[id, type, callback, time]` are modelled
  by `Entry`; callback closures are identified by numeric tokens and an
  invocation log (`events` in `ConnState`) records every call of a
  callback together with its argument.
* `setTimeout` timers are modelled by handles drawn from a counter:
  `timers` holds the armed, not-yet-fired handles, each tagged with the
  connection generation (incremented at each `login()`) it was armed in.
* Methods that can throw (`_handleLoginMsg`, accessing a property of
  `undefined`/`null`, `_resetConnection` on a null socket) return
  `Except String _`; an `Except.error` models an uncaught exception.
* `Reachable` enumerates the states produced by the public API
  (`login`, `logout`, request submission) and by the event sources
  (inbound records, timer firings).
-/

namespace Challenge

/-- JSON-like values manipulated by the client.  An object is a list of
field/value pairs; a missing field reads as `none` (JavaScript `undefined`). -/
inductive JVal where
  | jnull
  | jbool (b : Bool)
  | jnum (n : Int)
  | jstr (s : String)
  | jobj (fields : List (String × JVal))

/-- Property read `v.k`: defined only on objects, `none` elsewhere (reading a
property of a number/string/bool yields `undefined` in JavaScript; the
`null`/`undefined` crash case is handled at the use sites). -/
def getField : JVal → String → Option JVal
  | .jobj fs, k => fs.lookup k
  | _, _ => none

/-- The check `typeof x === 'undefined' || x === null` used on `response.err`
by the request callbacks. -/
def isUndefOrNull : Option JVal → Bool
  | none => true
  | some .jnull => true
  | some _ => false

/-- Source: `this._msgType`, the server message types the app cares about. -/
def msgType : List String := ["welcome", "heartbeat", "msg", "count", "time"]

/-- Source: `this._typLogin`. -/
def typLogin : Nat := 0

/-- Source: `this._typHeartbeat`. -/
def typHeartbeat : Nat := 1

/-- Source: `this._typMsg`. -/
def typMsg : Nat := 2

/-- Source: `this._typCount`. -/
def typCount : Nat := 3

/-- Source: `this._typTime`. -/
def typTime : Nat := 4

/-- Array indexing `this._msgType[i]` used throughout the source. -/
def typeName (i : Nat) : String := msgType.getD i ""

/-- A row of the pending request table: source rows are positional arrays
`[id, type, callback, time]` read through the index constants `_reqId`,
`_reqType`, `_reqCallback`, `_reqTime`.  The callback closure is identified
by a numeric token `cb`. -/
structure Entry where
  id : String
  type : String
  cb : Nat
  time : Nat
deriving DecidableEq, Repr

/-- Source `_nextMsgId`: `'challenge' + this.loginName + Date.now().toString()`.
The current time is passed explicitly. -/
def nextMsgId (loginName : String) (now : Nat) : String :=
  "challenge" ++ loginName ++ Nat.repr now

/-- Source `_getMsgId`: returns the `reply` field of a server response message
provided it exists, is a string and starts with the 9-character client tag
`'challenge'` (`msg.reply.substr(0, 9)` is `String.take 9`); otherwise the
message is ignored (`null`, here `none`). -/
def getMsgId (msg : JVal) : Option String :=
  match getField msg "reply" with
  | some (.jstr s) => if s.take 9 = "challenge" then some s else none
  | _ => none

/-- Source `_getPendingReq`: scan the table for the first row whose id matches,
splice it out and return its callback; `none` and the unchanged table when no
row matches. -/
def getPendingReq (id : String) : List Entry → Option Nat × List Entry
  | [] => (none, [])
  | e :: rest =>
    if e.id = id then (some e.cb, rest)
    else
      let r := getPendingReq id rest
      (r.1, e :: r.2)

/-- The timeout failure object
`{err: 'Request timeout error - request type: T, request time: t'}`
passed by `_chkPendingReq` to a timed-out request's callback. -/
def timeoutErr (type : String) (time : Nat) : JVal :=
  .jobj [("err", .jstr ("Request timeout error - request type: " ++ type
      ++ ", request time: " ++ Nat.repr time))]

/-- The reset failure object
`{err: 'Server reset error - request type: T, request time: t'}`
passed by `_resetConnection` to a drained request's callback. -/
def resetErr (type : String) (time : Nat) : JVal :=
  .jobj [("err", .jstr ("Server reset error - request type: " ++ type
      ++ ", request time: " ++ Nat.repr time))]

/-- One step of the `forEach` loop in `_chkPendingReq`.  JavaScript `forEach`
visits indices `0 .. len0-1` where `len0` is the length at loop entry, reading
`arr[k]` afresh at each step and skipping indices past the current end; the
loop body splices the visited row out of the array when its age exceeds
5000 ms (`timestamp - time > 5000`; with `Nat` subtraction a future `time`
gives `0 > 5000 = false`, exactly as the negative JavaScript difference).
`steps` is the number of remaining index steps (`len0 - k`).  Returns the
final array and the removed rows in visit order. -/
def chkPendingReqGo (timestamp : Nat) : Nat → Nat → List Entry → List Entry × List Entry
  | 0, _, arr => (arr, [])
  | steps + 1, k, arr =>
    match arr.get? k with
    | none => (arr, [])
    | some e =>
      if timestamp - e.time > 5000 then
        let r := chkPendingReqGo timestamp steps (k + 1) (arr.eraseIdx k)
        (r.1, e :: r.2)
      else chkPendingReqGo timestamp steps (k + 1) arr

/-- Source `_chkPendingReq`: the timeout sweep over the pending request table,
with the source's `forEach`-with-`splice` iteration semantics.  Returns the
new table and the rows removed (whose callbacks get `timeoutErr`). -/
def chkPendingReq (timestamp : Nat) (arr : List Entry) : List Entry × List Entry :=
  chkPendingReqGo timestamp arr.length 0 arr

/-- JavaScript `String.prototype.split` with a single-character separator,
on the character list of the buffer. -/
def splitChar (c : Char) : List Char → List (List Char)
  | [] => [[]]
  | x :: xs =>
    if x = c then [] :: splitChar c xs
    else
      match splitChar c xs with
      | [] => [[x]]
      | y :: ys => (x :: y) :: ys

/-- Source `buffer.toString().split('\n')` in `_parseRcvBuffer`. -/
def splitLines (buffer : String) : List String :=
  (splitChar '\n' buffer.data).map (fun l => l.asString)

/-- The guard `msg != null && msg.trim().length > 0` of `_parseRcvBuffer`:
a fragment is kept exactly when it contains a non-whitespace character
(`split` never yields `null`). -/
def hasContent (m : String) : Bool :=
  m.data.any (fun ch => !ch.isWhitespace)

/-- Source `_parseRcvBuffer`: split the received buffer on newlines, skip
blank fragments, and run `JSON.parse` on each fragment independently, keeping
the successfully parsed records; a fragment that fails to parse
(`jsonParse` returns `none`, the `SyntaxError` case) is logged and dropped
without affecting the other fragments.  `jsonParse` abstracts the platform's
JSON parser. -/
def parseRcvBuffer (jsonParse : String → Option JVal) (buffer : String) : List JVal :=
  ((splitLines buffer).filter hasContent).filterMap jsonParse

/-- Possible outcomes of the promise returned by `_chkServerLogin`, as
observed by `_sendServerReq`: the promise resolves, rejects with an error
object, or the process crashes on an uncaught exception inside the
`setInterval` callback. -/
inductive ChkOutcome where
  | resolved
  | rejected (err : String)
  | crashed (err : String)
deriving DecidableEq, Repr

/-- Source `_chkServerLogin`.  If `this.loggedIn`, resolve at once.  Otherwise,
if `this.reset`, poll the logged-in flag once per second (`loggedInAtPoll n`
is the flag's value at the n-th one-second poll): a poll that sees the flag
set resolves; a poll that sees it clear executes `--i` where `i` is an
undeclared variable (the declared counter is `retry`, which is never used),
which under `'use strict'` throws a `ReferenceError` inside the timer
callback, crashing the process before any retry countdown can happen.
If neither logged in nor resetting, reject immediately. -/
def chkServerLogin (loggedIn reset : Bool) (loggedInAtPoll : Nat → Bool) : ChkOutcome :=
  if loggedIn then .resolved
  else if reset then
    if loggedInAtPoll 1 then .resolved
    else .crashed "ReferenceError: i is not defined"
  else .rejected "Not logged into server!"

/-- Source `getRequestCount`'s response callback: when `response.err` is
undefined or null it resolves `{count: response.count}`, otherwise it rejects
with the error. -/
def getRequestCountCb (response : JVal) : Except JVal (Option JVal) :=
  if isUndefOrNull (getField response "err") then .ok (getField response "count")
  else .error ((getField response "err").getD .jnull)

/-- Source `getTime`'s response callback: when `response.err` is undefined or
null it resolves `{time: response.time, number: response.random}` (note the
field read is `random`, not `number`), otherwise it rejects with the error. -/
def getTimeCb (response : JVal) : Except JVal (Option JVal × Option JVal) :=
  if isUndefOrNull (getField response "err") then
    .ok (getField response "time", getField response "random")
  else .error ((getField response "err").getD .jnull)

/-- State of a `ChallengeConnection` instance, together with the model
bookkeeping for timers and callback invocations.

Fields from the source: `loggedIn`, `reset`, `loginName`, `pendingReq`
(`this._pendingReq`), `heartbeatTimer` (`this._heartbeatTimer`, `none` for
`null`), `socketLive` (`this._socket != null`).

Model bookkeeping: `generation` counts `login()` calls (connection
generations); `timers` is the list of armed, not-yet-fired `setTimeout`
handles paired with the generation they were armed in; `nextHandle` and
`nextCb` are fresh-handle/fresh-callback-token supplies; `events` logs every
callback invocation as (token, argument). -/
structure ConnState where
  loggedIn : Bool
  reset : Bool
  loginName : String
  pendingReq : List Entry
  heartbeatTimer : Option Nat
  socketLive : Bool
  generation : Nat
  timers : List (Nat × Nat)
  nextHandle : Nat
  nextCb : Nat
  events : List (Nat × JVal)

/-- The constructor's initial state: no connection, empty table, no timer. -/
def initConn : ConnState :=
  { loggedIn := false, reset := false, loginName := "", pendingReq := []
    heartbeatTimer := none, socketLive := true, generation := 0, timers := []
    nextHandle := 0, nextCb := 0, events := [] }

/-- Source `login()` (the synchronous body of the promise executor): connect
the socket, clear the pending request table, push the login entry
(`_sendLoginReq`: id `''`, type `_msgType[_typLogin]`, fresh callback, now),
and arm the heartbeat watchdog
(`this._heartbeatTimer = setTimeout(this._resetConnection, 2000)`).  Note
that no `clearTimeout` is issued: a previously armed timer handle is merely
overwritten and stays armed.  `loggedIn` and `reset` are only changed later,
by the login callback. -/
def loginOp (now : Nat) (st : ConnState) : ConnState :=
  { st with
    socketLive := true
    pendingReq := [⟨"", typeName typLogin, st.nextCb, now⟩]
    nextCb := st.nextCb + 1
    generation := st.generation + 1
    heartbeatTimer := some st.nextHandle
    timers := st.timers ++ [(st.nextHandle, st.generation + 1)]
    nextHandle := st.nextHandle + 1 }

/-- Source `logout()`: destroy the socket, clear login state and the pending
request table.  The heartbeat timer is not cancelled. -/
def logoutOp (st : ConnState) : ConnState :=
  { st with socketLive := false, loginName := "", loggedIn := false, pendingReq := [] }

/-- Source `_sendServerReq` after `_chkServerLogin` resolved: generate a
message id from the login name and the current time, push the request row and
write the request to the socket. -/
def sendServerReq (type : String) (now : Nat) (st : ConnState) : ConnState :=
  { st with
    pendingReq := st.pendingReq ++ [⟨nextMsgId st.loginName now, type, st.nextCb, now⟩]
    nextCb := st.nextCb + 1 }

/-- Effect of invoking a login callback (the closure created in `login()`)
with argument `arg`: the invocation is logged and the closure body runs.
With `err == null` it marks the connection logged in.  With `err != null` it
calls `reject(err)` but, lacking a `return`, falls through and still sets
`loginName`, `loggedIn = true` and `reset = false`, so the state effect is
the same for every argument. -/
def invokeLoginCb (arg : JVal) (cb : Nat) (st : ConnState) : ConnState :=
  { st with
    events := st.events ++ [(cb, arg)]
    loginName := "coder1", loggedIn := true, reset := false }

/-- Source `_handleLoginMsg`: a login acknowledgment is valid only when the
table holds exactly the pending login row, otherwise the method throws; the
login callback is then invoked with `null`.  The row is not removed from the
table. -/
def handleLoginMsg (st : ConnState) : Except String ConnState :=
  match st.pendingReq with
  | [e] =>
    if e.type = typeName typLogin then .ok (invokeLoginCb .jnull e.cb st)
    else .error "Error: Invalid pending request table on login"
  | _ => .error "Error: Invalid pending request table on login"

/-- Source `_handleHeartbeat`: with no armed watchdog the method returns at
once; otherwise it clears the current deadline
(`clearTimeout(this._heartbeatTimer)`), arms a fresh 2-second one, and runs
the timeout sweep `_chkPendingReq(pulse)`.  Each swept row's callback is
invoked with the timeout error; sweeping a pending login row runs the login
callback, whose fall-through body marks the connection logged in. -/
def handleHeartbeat (now : Nat) (st : ConnState) : ConnState :=
  match st.heartbeatTimer with
  | none => st
  | some h =>
    let armed := { st with
      timers := (st.timers.filter (fun (t : Nat × Nat) => t.1 ≠ h)) ++ [(st.nextHandle, st.generation)]
      heartbeatTimer := some st.nextHandle
      nextHandle := st.nextHandle + 1 }
    let swept := chkPendingReq now armed.pendingReq
    let st2 := { armed with
      pendingReq := swept.1
      events := armed.events ++ swept.2.map (fun (e : Entry) => (e.cb, timeoutErr e.type e.time)) }
    if swept.2.any (fun e => e.type = typeName typLogin) then
      { st2 with loginName := "coder1", loggedIn := true, reset := false }
    else st2

/-- Source `_handleCountMsg`: read the message id (`_getMsgId`), look up and
splice the matching pending row (`_getPendingReq`), and invoke its callback
with the response payload; with no valid id or no matching row the message is
logged and ignored. -/
def handleCountMsg (response : JVal) (st : ConnState) : ConnState :=
  match getMsgId response with
  | none => st
  | some k =>
    match getPendingReq k st.pendingReq with
    | (none, _) => st
    | (some cb, rest) => { st with pendingReq := rest, events := st.events ++ [(cb, response)] }

/-- Source `_handleTimeMsg`: identical handling to `_handleCountMsg` for time
responses. -/
def handleTimeMsg (response : JVal) (st : ConnState) : ConnState :=
  match getMsgId response with
  | none => st
  | some k =>
    match getPendingReq k st.pendingReq with
    | (none, _) => st
    | (some cb, rest) => { st with pendingReq := rest, events := st.events ++ [(cb, response)] }

/-- Source `_handleServerMsg`, for one parsed record: route on `msg.type`
(`'welcome'`/`'heartbeat'`/`'msg'`; any other value, a missing type and a
non-string type are logged and ignored).  For a `'msg'` record the inner
payload `msg.msg` is routed on the presence of its `count`/`time` fields;
when `msg.msg` is absent or `null`, reading `response.count` throws a
`TypeError` (uncaught: the error escapes the socket data handler). -/
def handleServerRecord (r : JVal) (now : Nat) (st : ConnState) : Except String ConnState :=
  match getField r "type" with
  | some (.jstr t) =>
    if t = typeName typLogin then handleLoginMsg st
    else if t = typeName typHeartbeat then .ok (handleHeartbeat now st)
    else if t = typeName typMsg then
      match getField r "msg" with
      | none => .error "TypeError"
      | some .jnull => .error "TypeError"
      | some v =>
        if (getField v "count").isSome then .ok (handleCountMsg v st)
        else if (getField v "time").isSome then .ok (handleTimeMsg v st)
        else .ok st
    else .ok st
  | _ => .ok st

/-- Source `_handleServerMsg` over a whole received chunk: decode the buffer
and process the records in order (an uncaught exception aborts the rest). -/
def handleChunk (jsonParse : String → Option JVal) (buffer : String) (now : Nat)
    (st : ConnState) : Except String ConnState :=
  (parseRcvBuffer jsonParse buffer).foldlM (fun s r => handleServerRecord r now s) st

/-- Source `_resetConnection`, run when the heartbeat watchdog `h` fires (the
runtime consumes the fired handle).  It clears the logged-in flag, sets the
resetting flag, invokes the callback of every pending row except login rows
with the reset error (without removing any row), destroys the socket
(`this._socket.destroy()` throws a `TypeError` when the socket is `null`)
and synchronously calls `login()`, whose executor clears the table, pushes a
fresh login row and arms a fresh watchdog. -/
def resetConnection (now h : Nat) (st : ConnState) : Except String ConnState :=
  let st1 := { st with
    timers := st.timers.filter (fun (t : Nat × Nat) => t.1 ≠ h)
    loggedIn := false, reset := true }
  let st2 := { st1 with
    events := st1.events ++
      (st1.pendingReq.filter (fun (e : Entry) => e.type ≠ typeName typLogin)).map
        (fun (e : Entry) => (e.cb, resetErr e.type e.time)) }
  if st2.socketLive then .ok (loginOp now { st2 with socketLive := false })
  else .error "TypeError"

/-- States reachable through the public API and the event sources.  `login`
carries the documented precondition that no login is currently outstanding;
`send` models a request submitted while logged in (`_chkServerLogin` resolves
at once); `recv` is the arrival of one parsed record; `fire` is the firing of
an armed watchdog handle.  Crashing transitions (an `Except.error`) terminate
the process and therefore produce no new state. -/
inductive Reachable : ConnState → Prop
  | init : Reachable initConn
  | login (st : ConnState) (now : Nat) : Reachable st →
      (∀ e ∈ st.pendingReq, e.type ≠ typeName typLogin) → Reachable (loginOp now st)
  | logout (st : ConnState) : Reachable st → Reachable (logoutOp st)
  | send (st : ConnState) (type : String) (now : Nat) : Reachable st →
      st.loggedIn = true → Reachable (sendServerReq type now st)
  | recv (st st' : ConnState) (r : JVal) (now : Nat) : Reachable st →
      handleServerRecord r now st = .ok st' → Reachable st'
  | fire (st st' : ConnState) (h g now : Nat) : Reachable st →
      (h, g) ∈ st.timers → resetConnection now h st = .ok st' → Reachable st'

/-- Extract the successor state of a non-crashing record receipt (used to
name the intermediate states of concrete executions). -/
def stepOk (r : JVal) (now : Nat) (st : ConnState) : ConnState :=
  (handleServerRecord r now st).toOption.getD st

/-- The login acknowledgment record `{type:'welcome'}`. -/
def welcomeRec : JVal := .jobj [("type", .jstr "welcome")]

/-- The heartbeat record `{type:'heartbeat'}`. -/
def heartbeatRec : JVal := .jobj [("type", .jstr "heartbeat")]

/-- A fresh connection right after `login()` was called at time 0: the table
holds the pending login row and the watchdog handle 0 is armed. -/
def c1s1 : ConnState := loginOp 0 initConn

/-- The state after the login acknowledgment arrived at time 100: the login
callback has been invoked with `null`, but the login row is still in the
table. -/
def c1s2 : ConnState := stepOk welcomeRec 100 c1s1

/-- The state after a heartbeat arrives at time 5001: the sweep times the
5-second-old login row out and invokes the login callback a second time. -/
def c1s3 : ConnState := stepOk heartbeatRec 5001 c1s2

/-- C1.  The pending-table invariant fails in the code: a completion handler
can be invoked twice for the same correlation key.  The login row (key `''`)
is not removed by its matching response — `_handleLoginMsg` calls the
callback but never splices the row — so the timeout sweep finds it 5 seconds
later, removes it and invokes the same callback again with a timeout error.
In the reachable execution login→ack→heartbeat(5001), callback token 0 is
invoked twice (`events` records tokens `[0, 0]`). -/
theorem C1_login_handler_invoked_twice :
    Reachable c1s3
    ∧ handleServerRecord welcomeRec 100 c1s1 = .ok c1s2
    ∧ handleServerRecord heartbeatRec 5001 c1s2 = .ok c1s3
    ∧ c1s2.pendingReq = [⟨"", "welcome", 0, 0⟩]
    ∧ c1s3.events.map Prod.fst = [0, 0]
    ∧ c1s3.pendingReq = [] := by
  have h1 : handleServerRecord welcomeRec 100 c1s1 = .ok c1s2 := rfl
  have h2 : handleServerRecord heartbeatRec 5001 c1s2 = .ok c1s3 := rfl
  refine ⟨?_, h1, h2, rfl, rfl, rfl⟩
  exact .recv _ _ _ _ (.recv _ _ _ _ (.login _ 0 .init (by simp [initConn])) h1) h2

/-- C3, failing input.  Two adjacent expired rows: both are older than
5 seconds at time 6000, yet the sweep removes only the first.  The splice
inside `forEach` shifts the second row into the visited index, so it is
skipped: it stays in the table and its callback is not invoked.  The
end-to-end heartbeat receipt shows the same: only callback 1 fires. -/
theorem C3_sweep_skips_adjacent_expired :
    chkPendingReq 6000
        [⟨nextMsgId "coder1" 0, "count", 1, 0⟩, ⟨nextMsgId "coder1" 1, "time", 2, 1⟩]
      = ([⟨nextMsgId "coder1" 1, "time", 2, 1⟩], [⟨nextMsgId "coder1" 0, "count", 1, 0⟩])
    ∧ 6000 - 1 > 5000
    ∧ (handleServerRecord heartbeatRec 6000
          { initConn with
            loggedIn := true, loginName := "coder1", heartbeatTimer := some 0
            generation := 1, timers := [(0, 1)], nextHandle := 1, nextCb := 3
            pendingReq := [⟨nextMsgId "coder1" 0, "count", 1, 0⟩,
                           ⟨nextMsgId "coder1" 1, "time", 2, 1⟩] }).map
        (fun s => (s.pendingReq, s.events.map Prod.fst))
      = .ok ([⟨nextMsgId "coder1" 1, "time", 2, 1⟩], [1]) := by
  refine ⟨rfl, by decide, rfl⟩

/-- C4.  The readiness check: immediate success when logged in and immediate
`Not logged into server!` rejection when neither logged in nor resetting are
as specified; but during a reset the first one-second poll that still sees
`loggedIn` false executes `--i` on an undeclared variable (the declared
counter `retry` is never used) and throws a `ReferenceError` under
`'use strict'` — there is no 5-attempt retry budget and no reset error. -/
theorem C4_ready_check_crashes_on_failed_poll :
    chkServerLogin true false (fun _ => false) = .resolved
    ∧ chkServerLogin false false (fun _ => false) = .rejected "Not logged into server!"
    ∧ chkServerLogin false true (fun _ => true) = .resolved
    ∧ chkServerLogin false true (fun _ => false)
        = .crashed "ReferenceError: i is not defined" := by
  refine ⟨rfl, rfl, rfl, rfl⟩

/-- C6, counterexample.  A record of discriminator `msg` with a missing (or
`null`) inner payload has, in particular, a missing correlation field, so the
claim requires it to be logged and discarded; instead `_handleServerMsg`
evaluates `response.count` on `undefined`/`null` and throws a `TypeError`. -/
theorem C6_counterexample_msg_null_payload :
    handleServerRecord (.jobj [("type", .jstr "msg")]) 0 initConn = .error "TypeError"
    ∧ handleServerRecord (.jobj [("type", .jstr "msg"), ("msg", .jnull)]) 0 initConn
      = .error "TypeError" :=
  ⟨rfl, rfl⟩

/-- The state after login at time 0 and the login acknowledgment at
time 50. -/
def c9base : ConnState := stepOk welcomeRec 50 (loginOp 0 initConn)

/-- Two requests (a count and a time request) submitted in the same
millisecond, time 100. -/
def c9s : ConnState := sendServerReq "time" 100 (sendServerReq "count" 100 c9base)

/-- C9, counterexample.  Correlation keys are `'challenge' + loginName +
Date.now()`: two distinct outstanding requests submitted in the same clock
tick receive the same key `challengecoder1100`, refuting per-request
uniqueness within a tick. -/
theorem C9_counterexample_same_tick_key_collision :
    Reachable c9s
    ∧ c9s.pendingReq.map Entry.id = ["", "challengecoder1100", "challengecoder1100"]
    ∧ c9s.pendingReq.get? 1 ≠ c9s.pendingReq.get? 2 := by
  have h1 : handleServerRecord welcomeRec 50 (loginOp 0 initConn) = .ok c9base := rfl
  refine ⟨?_, rfl, by decide⟩
  exact .send _ _ _ (.send _ _ _
    (.recv _ _ _ _ (.login _ 0 .init (by simp [initConn])) h1) rfl) rfl

/-- A full session: login at 0, acknowledgment at 100, heartbeat at 1000
(re-arming the watchdog as handle 1), logout at 1500, and a second login at
1600 arming handle 2 — while handle 1 is still armed, because neither
`logout()` nor `login()` ever calls `clearTimeout`. -/
def c5s : ConnState :=
  loginOp 1600 (logoutOp (stepOk heartbeatRec 1000 (stepOk welcomeRec 100 (loginOp 0 initConn))))

/-- C5, counterexample.  Arming on (re)login does not cancel a prior alarm:
after the reachable session login→ack→heartbeat→logout→login, two watchdog
timers (handles 1 and 2, of generations 1 and 2) are concurrently
outstanding, refuting "never two concurrently outstanding timers". -/
theorem C5_counterexample_two_timers :
    Reachable c5s ∧ c5s.timers = [(1, 1), (2, 2)] ∧ c5s.timers.length = 2 := by
  have h1 : handleServerRecord welcomeRec 100 (loginOp 0 initConn)
      = .ok (stepOk welcomeRec 100 (loginOp 0 initConn)) := rfl
  have h2 : handleServerRecord heartbeatRec 1000 (stepOk welcomeRec 100 (loginOp 0 initConn))
      = .ok (stepOk heartbeatRec 1000 (stepOk welcomeRec 100 (loginOp 0 initConn))) := rfl
  refine ⟨?_, by decide, by decide⟩
  exact .login _ 1600 (.logout _ (.recv _ _ _ _
    (.recv _ _ _ _ (.login _ 0 .init (by simp [initConn])) h1) h2)) (by decide)

/-- The state after login at 0, acknowledgment at 50 and a count request
submitted at time 100: the table holds the (never removed) login row with
callback 0 and the count row with callback 1; watchdog handle 0 is armed. -/
def c2pre : ConnState := sendServerReq "count" 100 c9base

/-- C2, counterexample.  When the watchdog fires and the reset runs, a
pending login row is not preserved: `_resetConnection` skips its callback,
but the `login()` it triggers clears the whole table and pushes a fresh login
row (callback token 2) — the original row (callback token 0) is gone and its
handler is never invoked or retried. -/
theorem C2_counterexample_login_entry_dropped :
    Reachable c2pre
    ∧ (0, 1) ∈ c2pre.timers
    ∧ c2pre.pendingReq.get? 0 = some ⟨"", "welcome", 0, 0⟩
    ∧ (resetConnection 2600 0 c2pre).map (fun s => s.pendingReq)
      = .ok [⟨"", "welcome", 2, 2600⟩]
    ∧ (resetConnection 2600 0 c2pre).map
        (fun s => decide (⟨"", "welcome", 0, 0⟩ ∈ s.pendingReq)) = .ok false := by
  have h1 : handleServerRecord welcomeRec 50 (loginOp 0 initConn) = .ok c9base := rfl
  refine ⟨?_, by decide, by decide, rfl, rfl⟩
  exact .send _ _ _ (.recv _ _ _ _ (.login _ 0 .init (by simp [initConn])) h1) rfl

/-- Decimal value of a digit character produced by `Nat.digitChar`. -/
def digitVal (ch : Char) : Nat :=
  if ch = '0' then 0 else if ch = '1' then 1 else if ch = '2' then 2 else
  if ch = '3' then 3 else if ch = '4' then 4 else if ch = '5' then 5 else
  if ch = '6' then 6 else if ch = '7' then 7 else if ch = '8' then 8 else 9

/-- Value of a big-endian digit-character list. -/
def charsVal (l : List Char) : Nat :=
  l.foldl (fun a ch => a * 10 + digitVal ch) 0

theorem digitVal_digitChar (m : Nat) (h : m < 10) : digitVal (Nat.digitChar m) = m := by
  interval_cases m <;> rfl

theorem charsVal_append (l : List Char) (ch : Char) :
    charsVal (l ++ [ch]) = charsVal l * 10 + digitVal ch := by
  simp [charsVal, List.foldl_append]

theorem toDigitsCore_acc (b fuel : Nat) :
    ∀ (n : Nat) (ds : List Char),
      Nat.toDigitsCore b fuel n ds = Nat.toDigitsCore b fuel n [] ++ ds := by
  induction fuel with
  | zero => intro n ds; simp [Nat.toDigitsCore]
  | succ fuel ih =>
    intro n ds
    simp only [Nat.toDigitsCore]
    split
    · simp
    · rw [ih (n / b) (Nat.digitChar (n % b) :: ds), ih (n / b) [Nat.digitChar (n % b)]]
      simp

theorem toDigitsCore_val (fuel : Nat) :
    ∀ n : Nat, n < fuel → charsVal (Nat.toDigitsCore 10 fuel n []) = n := by
  induction fuel with
  | zero => intro n h; omega
  | succ fuel ih =>
    intro n h
    have hmod : n % 10 < 10 := Nat.mod_lt _ (by norm_num)
    simp only [Nat.toDigitsCore]
    split
    · rename_i hdiv
      have h9 : n < 10 := by omega
      simp [charsVal, Nat.mod_eq_of_lt h9, digitVal_digitChar n h9]
    · rename_i hdiv
      rw [toDigitsCore_acc, charsVal_append]
      have hdivlt : n / 10 < fuel := by omega
      rw [ih _ hdivlt, digitVal_digitChar _ hmod]
      omega

/-- Decimal rendering of naturals is injective. -/
theorem natRepr_injective {n m : Nat} (h : Nat.repr n = Nat.repr m) : n = m := by
  have hn := toDigitsCore_val (n + 1) n (by omega)
  have hm := toDigitsCore_val (m + 1) m (by omega)
  simp only [Nat.repr, Nat.toDigits] at h
  have hl : Nat.toDigitsCore 10 (n + 1) n [] = Nat.toDigitsCore 10 (m + 1) m [] :=
    List.asString_inj.mp h
  rw [hl, hm] at hn
  omega

/-- Any concatenation starting with the client tag keeps it as its
9-character head. -/
theorem challenge_take_nine (s : String) : ("challenge" ++ s).take 9 = "challenge" := by
  apply String.ext
  rw [String.data_take, String.data_append]
  rw [List.take_append_of_le_length (by decide)]
  decide

/-- C9, amended.  Correlation keys are injective in the send time: two
requests submitted at distinct clock ticks always receive distinct keys
(the counterexample shows equal ticks give equal keys). -/
theorem C9_distinct_times_distinct_keys (name : String) (t1 t2 : Nat) (h : t1 ≠ t2) :
    nextMsgId name t1 ≠ nextMsgId name t2 := by
  intro he
  apply h
  apply natRepr_injective
  have hd := congrArg String.data he
  simp only [nextMsgId, String.data_append, List.append_assoc] at hd
  have hd2 := List.append_cancel_left (List.append_cancel_left hd)
  exact String.ext hd2

/-- Witness for C9: the keys of ticks 100 and 101 differ. -/
theorem C9_distinct_times_distinct_keys_witness :
    nextMsgId "coder1" 100 ≠ nextMsgId "coder1" 101 :=
  C9_distinct_times_distinct_keys "coder1" 100 101 (by decide)

/-- When no row of `pre` matches, `_getPendingReq` splices out exactly the
first matching row. -/
theorem getPendingReq_append_match (k : String) (pre suf : List Entry) (e0 : Entry)
    (hpre : ∀ e ∈ pre, e.id ≠ k) (he : e0.id = k) :
    getPendingReq k (pre ++ e0 :: suf) = (some e0.cb, pre ++ suf) := by
  induction pre with
  | nil => simp [getPendingReq, he]
  | cons a pre ih =>
    have ha : a.id ≠ k := hpre a (by simp)
    simp only [List.cons_append, getPendingReq, if_neg ha, List.append_eq]
    rw [ih (fun e he' => hpre e (by simp [he']))]

/-- A successful `_getPendingReq` lookup comes from the first row whose id is
the requested key; that row and only that row is spliced out. -/
theorem getPendingReq_some (k : String) :
    ∀ (l : List Entry) (cb : Nat) (rest : List Entry),
      getPendingReq k l = (some cb, rest) →
      ∃ pre e suf, l = pre ++ e :: suf ∧ e.id = k ∧ e.cb = cb ∧
        (∀ x ∈ pre, x.id ≠ k) ∧ rest = pre ++ suf := by
  intro l
  induction l with
  | nil => intro cb rest h; simp [getPendingReq] at h
  | cons a l ih =>
    intro cb rest h
    simp only [getPendingReq] at h
    by_cases ha : a.id = k
    · rw [if_pos ha] at h
      have h1 : some a.cb = some cb := congrArg Prod.fst h
      have h2 : l = rest := congrArg Prod.snd h
      exact ⟨[], a, l, by simp, ha, Option.some.inj h1, by simp, by simp [h2]⟩
    · rw [if_neg ha] at h
      have h1 : (getPendingReq k l).1 = some cb := congrArg Prod.fst h
      have h2 : a :: (getPendingReq k l).2 = rest := congrArg Prod.snd h
      obtain ⟨pre, e, suf, hl, he, hcb, hp, hr⟩ :=
        ih cb (getPendingReq k l).2 (by rw [← h1])
      refine ⟨a :: pre, e, suf, by simp [hl], he, hcb, ?_, ?_⟩
      · intro x hx
        rcases List.mem_cons.mp hx with hxa | hxp
        · exact hxa ▸ ha
        · exact hp x hxp
      · rw [← h2, hr]; simp

/-- Keys generated by `_nextMsgId` always carry the 9-character client tag
that `_getMsgId` checks for. -/
theorem nextMsgId_take_nine (name : String) (t : Nat) :
    (nextMsgId name t).take 9 = "challenge" := by
  apply String.ext
  rw [String.data_take]
  simp only [nextMsgId, String.data_append, List.append_assoc]
  rw [List.take_append_of_le_length (by decide)]
  decide

/-- C7.  Count scenario: with a pending count request under a generated key
(the first row with that key, callback `cb`), a server record
`{type:'msg', msg:{count:23, reply:<key>}}` removes that row and invokes its
callback with the payload, and `getRequestCount`'s callback then resolves
with count 23. -/
theorem C7_count_scenario
    (name : String) (t : Nat) (pre suf : List Entry) (cb t0 now : Nat) (st : ConnState)
    (hpre : ∀ e ∈ pre, e.id ≠ nextMsgId name t)
    (htab : st.pendingReq = pre ++ ⟨nextMsgId name t, typeName typCount, cb, t0⟩ :: suf) :
    handleServerRecord
        (.jobj [("type", .jstr "msg"),
                ("msg", .jobj [("count", .jnum 23), ("reply", .jstr (nextMsgId name t))])])
        now st
      = .ok { st with
              pendingReq := pre ++ suf,
              events := st.events
                ++ [(cb, .jobj [("count", .jnum 23), ("reply", .jstr (nextMsgId name t))])] }
    ∧ getRequestCountCb (.jobj [("count", .jnum 23), ("reply", .jstr (nextMsgId name t))])
      = .ok (some (.jnum 23)) := by
  constructor
  · have hroute : handleServerRecord
        (.jobj [("type", .jstr "msg"),
                ("msg", .jobj [("count", .jnum 23), ("reply", .jstr (nextMsgId name t))])])
        now st
        = .ok (handleCountMsg
            (.jobj [("count", .jnum 23), ("reply", .jstr (nextMsgId name t))]) st) := rfl
    rw [hroute]
    have hid : getMsgId (.jobj [("count", .jnum 23), ("reply", .jstr (nextMsgId name t))])
        = some (nextMsgId name t) := by
      simp [getMsgId, getField, List.lookup, nextMsgId_take_nine]
    have hget : getPendingReq (nextMsgId name t) st.pendingReq
        = (some cb, pre ++ suf) := by
      rw [htab]
      exact getPendingReq_append_match _ pre suf _ hpre rfl
    simp only [handleCountMsg, hid, hget]
  · rfl

/-- Witness for C7 at a concrete table and key. -/
theorem C7_count_scenario_witness :
    handleServerRecord
        (.jobj [("type", .jstr "msg"),
                ("msg", .jobj [("count", .jnum 23), ("reply", .jstr (nextMsgId "coder1" 1234))])])
        6000 { initConn with pendingReq := [⟨nextMsgId "coder1" 1234, typeName typCount, 7, 50⟩] }
      = .ok { initConn with
              pendingReq := [],
              events := [(7, .jobj [("count", .jnum 23), ("reply", .jstr (nextMsgId "coder1" 1234))])] }
    ∧ getRequestCountCb (.jobj [("count", .jnum 23), ("reply", .jstr (nextMsgId "coder1" 1234))])
      = .ok (some (.jnum 23)) :=
  C7_count_scenario "coder1" 1234 [] [] 7 50 6000
    { initConn with pendingReq := [⟨nextMsgId "coder1" 1234, typeName typCount, 7, 50⟩] }
    (by simp) rfl

/-- C10.  Time scenario: a time response whose correlation key matches a
pending time request removes that row and invokes its callback with the
payload; `getTime`'s callback resolves `time` from the payload's `time`
field and `number` from the payload's `random` field, so a payload carrying
its value under `number` (and no `random` field) resolves with
`number` = `undefined` (`none`). -/
theorem C10_time_fields_mapping
    (name : String) (t : Nat) (pre suf : List Entry) (cb t0 now : Nat) (v : JVal)
    (st : ConnState)
    (hpre : ∀ e ∈ pre, e.id ≠ nextMsgId name t)
    (htab : st.pendingReq = pre ++ ⟨nextMsgId name t, typeName typTime, cb, t0⟩ :: suf) :
    handleServerRecord
        (.jobj [("type", .jstr "msg"),
                ("msg", .jobj [("time", v), ("number", .jnum 52),
                               ("reply", .jstr (nextMsgId name t))])])
        now st
      = .ok { st with
              pendingReq := pre ++ suf,
              events := st.events
                ++ [(cb, .jobj [("time", v), ("number", .jnum 52),
                                ("reply", .jstr (nextMsgId name t))])] }
    ∧ getTimeCb (.jobj [("time", v), ("number", .jnum 52),
                        ("reply", .jstr (nextMsgId name t))])
      = .ok (some v, none) := by
  constructor
  · have hroute : handleServerRecord
        (.jobj [("type", .jstr "msg"),
                ("msg", .jobj [("time", v), ("number", .jnum 52),
                               ("reply", .jstr (nextMsgId name t))])])
        now st
        = .ok (handleTimeMsg
            (.jobj [("time", v), ("number", .jnum 52),
                    ("reply", .jstr (nextMsgId name t))]) st) := rfl
    rw [hroute]
    have hid : getMsgId (.jobj [("time", v), ("number", .jnum 52),
        ("reply", .jstr (nextMsgId name t))]) = some (nextMsgId name t) := by
      simp [getMsgId, getField, List.lookup, nextMsgId_take_nine]
    have hget : getPendingReq (nextMsgId name t) st.pendingReq
        = (some cb, pre ++ suf) := by
      rw [htab]
      exact getPendingReq_append_match _ pre suf _ hpre rfl
    simp only [handleTimeMsg, hid, hget]
  · rfl

/-- Witness for C10 at a concrete table, key and time value. -/
theorem C10_time_fields_mapping_witness :
    handleServerRecord
        (.jobj [("type", .jstr "msg"),
                ("msg", .jobj [("time", .jnum 777), ("number", .jnum 52),
                               ("reply", .jstr (nextMsgId "coder1" 1234))])])
        6000 { initConn with pendingReq := [⟨nextMsgId "coder1" 1234, typeName typTime, 7, 50⟩] }
      = .ok { initConn with
              pendingReq := [],
              events := [(7, .jobj [("time", .jnum 777), ("number", .jnum 52),
                                    ("reply", .jstr (nextMsgId "coder1" 1234))])] }
    ∧ getTimeCb (.jobj [("time", .jnum 777), ("number", .jnum 52),
                        ("reply", .jstr (nextMsgId "coder1" 1234))])
      = .ok (some (.jnum 777), none) :=
  C10_time_fields_mapping "coder1" 1234 [] [] 7 50 6000 (.jnum 777)
    { initConn with pendingReq := [⟨nextMsgId "coder1" 1234, typeName typTime, 7, 50⟩] }
    (by simp) rfl

/-- Routing of a `msg` record with a present, non-null inner payload. -/
theorem handleServerRecord_msg (r v : JVal) (now : Nat) (st : ConnState)
    (hty : getField r "type" = some (.jstr "msg"))
    (hv : getField r "msg" = some v) (hvn : v ≠ .jnull) :
    handleServerRecord r now st =
      if (getField v "count").isSome then .ok (handleCountMsg v st)
      else if (getField v "time").isSome then .ok (handleTimeMsg v st)
      else .ok st := by
  unfold handleServerRecord
  rw [hty, hv]
  cases v with
  | jnull => exact absurd rfl hvn
  | jbool b => rfl
  | jnum n => rfl
  | jstr s => rfl
  | jobj fs => rfl

/-- C6, amended.  A record with an unrecognized or missing discriminator, or
a `msg` record whose (present, non-null) inner payload has a missing,
non-string, or wrongly-prefixed `reply` field, changes nothing: no pending
entry is resolved, no handler invoked, the record is dropped.  And whenever a
`msg` record does invoke a handler, the handler belongs to the first pending
row whose id equals the record's correlation key, and only that row is
removed.  (The unamended claim fails on `msg` records with an absent or
`null` inner payload, which throw instead: see the counterexample.) -/
theorem C6_invalid_records_dropped (r : JVal) (now : Nat) (st : ConnState) :
    ((∀ s : String, getField r "type" = some (.jstr s) →
        s ≠ typeName typLogin ∧ s ≠ typeName typHeartbeat ∧ s ≠ typeName typMsg) →
      handleServerRecord r now st = .ok st)
    ∧ (∀ v : JVal, getField r "type" = some (.jstr (typeName typMsg)) →
        getField r "msg" = some v → v ≠ .jnull → getMsgId v = none →
        handleServerRecord r now st = .ok st)
    ∧ (∀ (v : JVal) (k : String) (st' : ConnState),
        getField r "type" = some (.jstr (typeName typMsg)) →
        getField r "msg" = some v → getMsgId v = some k →
        handleServerRecord r now st = .ok st' →
        st' = st ∨
        ∃ pre e suf, st.pendingReq = pre ++ e :: suf ∧ e.id = k ∧
          (∀ x ∈ pre, x.id ≠ k) ∧
          st' = { st with
                  pendingReq := pre ++ suf,
                  events := st.events ++ [(e.cb, v)] }) := by
  refine ⟨?_, ?_, ?_⟩
  · intro hs
    unfold handleServerRecord
    cases hty : getField r "type" with
    | none => rfl
    | some val =>
      cases val with
      | jstr s =>
        obtain ⟨h1, h2, h3⟩ := hs s hty
        simp [h1, h2, h3]
      | jnull => rfl
      | jbool b => rfl
      | jnum n => rfl
      | jobj fs => rfl
  · intro v hty hv hvn hid
    rw [handleServerRecord_msg r v now st hty hv hvn]
    by_cases hc : (getField v "count").isSome
    · simp [hc, handleCountMsg, hid]
    · by_cases htm : (getField v "time").isSome
      · simp [hc, htm, handleTimeMsg, hid]
      · simp [hc, htm]
  · intro v k st' hty hv hid hrec
    have hvn : v ≠ .jnull := by
      intro h
      rw [h] at hid
      simp [getMsgId, getField] at hid
    rw [handleServerRecord_msg r v now st hty hv hvn] at hrec
    by_cases hc : (getField v "count").isSome
    · rw [if_pos hc] at hrec
      have hst : st' = handleCountMsg v st := (Except.ok.inj hrec).symm
      cases hgp : getPendingReq k st.pendingReq with
      | mk o rest =>
        cases o with
        | none =>
          left
          rw [hst]
          simp only [handleCountMsg, hid, hgp]
        | some cb =>
          obtain ⟨pre, e, suf, hl, he, hcb, hp, hr⟩ := getPendingReq_some k _ cb rest hgp
          right
          refine ⟨pre, e, suf, hl, he, hp, ?_⟩
          rw [hst]
          simp only [handleCountMsg, hid, hgp]
          rw [hr, ← hcb]
    · rw [if_neg hc] at hrec
      by_cases htm : (getField v "time").isSome
      · rw [if_pos htm] at hrec
        have hst : st' = handleTimeMsg v st := (Except.ok.inj hrec).symm
        cases hgp : getPendingReq k st.pendingReq with
        | mk o rest =>
          cases o with
          | none =>
            left
            rw [hst]
            simp only [handleTimeMsg, hid, hgp]
          | some cb =>
            obtain ⟨pre, e, suf, hl, he, hcb, hp, hr⟩ := getPendingReq_some k _ cb rest hgp
            right
            refine ⟨pre, e, suf, hl, he, hp, ?_⟩
            rw [hst]
            simp only [handleTimeMsg, hid, hgp]
            rw [hr, ← hcb]
      · rw [if_neg htm] at hrec
        exact Or.inl (Except.ok.inj hrec).symm

/-- Witness for C6: an unknown discriminator is dropped; a `msg` payload with
a non-string `reply` is dropped; a `msg` payload with a well-formed key and
an empty table resolves nothing. -/
theorem C6_invalid_records_dropped_witness :
    handleServerRecord (.jobj [("type", .jstr "bogus")]) 3 initConn = .ok initConn
    ∧ handleServerRecord
        (.jobj [("type", .jstr "msg"),
                ("msg", .jobj [("count", .jnum 1), ("reply", .jnum 5)])]) 3 initConn
      = .ok initConn
    ∧ (initConn = initConn ∨
        ∃ pre e suf, initConn.pendingReq = pre ++ e :: suf ∧ e.id = "challengeX" ∧
          (∀ x ∈ pre, x.id ≠ "challengeX") ∧
          initConn = { initConn with
                       pendingReq := pre ++ suf,
                       events := initConn.events
                         ++ [(e.cb, .jobj [("count", .jnum 1), ("reply", .jstr "challengeX")])] }) := by
  refine ⟨?_, ?_, ?_⟩
  · exact (C6_invalid_records_dropped (.jobj [("type", .jstr "bogus")]) 3 initConn).1
      (fun s hs => by
        have hb : JVal.jstr "bogus" = JVal.jstr s := Option.some.inj hs
        have hsb : s = "bogus" := (JVal.jstr.inj hb).symm
        subst hsb
        refine ⟨by decide, by decide, by decide⟩)
  · exact (C6_invalid_records_dropped
      (.jobj [("type", .jstr "msg"), ("msg", .jobj [("count", .jnum 1), ("reply", .jnum 5)])])
      3 initConn).2.1 (.jobj [("count", .jnum 1), ("reply", .jnum 5)]) rfl rfl
      (fun h => JVal.noConfusion h) rfl
  · exact (C6_invalid_records_dropped
      (.jobj [("type", .jstr "msg"),
              ("msg", .jobj [("count", .jnum 1), ("reply", .jstr "challengeX")])])
      3 initConn).2.2 (.jobj [("count", .jnum 1), ("reply", .jstr "challengeX")])
      "challengeX" initConn rfl rfl rfl rfl

theorem splitChar_ne_nil (c : Char) (l : List Char) : splitChar c l ≠ [] := by
  cases l with
  | nil => simp [splitChar]
  | cons x xs =>
    simp only [splitChar]
    split
    · simp
    · cases h : splitChar c xs <;> simp

/-- Splitting distributes over a separator occurrence. -/
theorem splitChar_append (c : Char) (a b : List Char) :
    splitChar c (a ++ c :: b) = splitChar c a ++ splitChar c b := by
  induction a with
  | nil => simp [splitChar]
  | cons x a ih =>
    cases h : splitChar c a with
    | nil => exact absurd h (splitChar_ne_nil c a)
    | cons y ys =>
      have hs : splitChar c (a ++ c :: b) = y :: (ys ++ splitChar c b) := by
        rw [ih, h]; rfl
      by_cases hx : x = c
      · subst hx
        show splitChar x (x :: (a ++ x :: b)) = splitChar x (x :: a) ++ splitChar x b
        simp [splitChar, hs, h]
      · show splitChar c (x :: (a ++ c :: b)) = splitChar c (x :: a) ++ splitChar c b
        simp only [splitChar, if_neg hx]
        rw [hs, h]
        simp

/-- A fragment with no separator splits to itself. -/
theorem splitChar_no_sep (c : Char) (l : List Char) (h : c ∉ l) : splitChar c l = [l] := by
  induction l with
  | nil => rfl
  | cons x xs ih =>
    have hx : x ≠ c := fun hc => h (hc ▸ List.mem_cons_self x xs)
    have hxs : c ∉ xs := fun hc => h (List.mem_cons_of_mem x hc)
    simp only [splitChar, if_neg hx, ih hxs]

/-- The serialized heartbeat record. -/
def hbRecStr : String := "\x7b\x22type\x22:\x22heartbeat\x22\x7d"

/-- A model of `JSON.parse` sufficient for the mixed chunk scenario: it
parses the serialized heartbeat record and fails on everything else. -/
def hbParse : String → Option JVal := fun s =>
  if s = hbRecStr then some heartbeatRec else none

/-- The mixed chunk: a malformed fragment followed by a valid heartbeat
record. -/
def hbChunk : String := "\x7bnot json\n" ++ hbRecStr

/-- C8.  The frame decoder splits the chunk on newlines and parses each
record independently: for every parser, a fragment the parser rejects
contributes nothing and never aborts the rest of the chunk.  In particular
the chunk `"\x7bnot json\n" ++ <heartbeat>` decodes to exactly the heartbeat
record, and processing it on a logged-in connection cancels the old deadline
(handle 0) and arms a fresh one (handle 1). -/
theorem C8_decoder_record_independence :
    (∀ (p : String → Option JVal) (bad tail : String),
      '\n' ∉ bad.data → p bad = none →
      parseRcvBuffer p (bad ++ "\n" ++ tail) = parseRcvBuffer p tail)
    ∧ parseRcvBuffer hbParse hbChunk = [heartbeatRec]
    ∧ (handleChunk hbParse hbChunk 1000 c1s2).map
        (fun s => (s.heartbeatTimer, s.timers)) = .ok (some 1, [(1, 1)]) := by
  refine ⟨?_, rfl, rfl⟩
  intro p bad tail hnl hpb
  unfold parseRcvBuffer splitLines
  have hdata : (bad ++ "\n" ++ tail).data = bad.data ++ '\n' :: tail.data := by
    simp [String.data_append]
  rw [hdata, splitChar_append, splitChar_no_sep '\n' bad.data hnl]
  have hback : bad.data.asString = bad := String.asString_toList bad
  simp only [List.map_append, List.map_cons, List.map_nil, List.singleton_append, hback]
  cases hc : hasContent bad with
  | true => simp [List.filter_cons, hc, hpb]
  | false => simp [List.filter_cons, hc]

/-- Witness for C8: the malformed fragment of the concrete chunk is dropped
and the heartbeat fragment still decodes. -/
theorem C8_decoder_record_independence_witness :
    parseRcvBuffer hbParse ("\x7bnot json" ++ "\n" ++ hbRecStr)
      = parseRcvBuffer hbParse hbRecStr :=
  C8_decoder_record_independence.1 hbParse "\x7bnot json" hbRecStr (by decide) rfl

/-- No event of the drain list carries callback token `c` when every
non-login row's token differs from `c`. -/
theorem drained_filter_eq_nil (l : List Entry) (c : Nat)
    (hc : ∀ x ∈ l, x.type ≠ typeName typLogin → x.cb ≠ c) :
    ((l.filter (fun (x : Entry) => x.type ≠ typeName typLogin)).map
        (fun (x : Entry) => (x.cb, resetErr x.type x.time))).filter
      (fun ev => ev.1 = c) = [] := by
  rw [List.filter_eq_nil_iff]
  intro ev hev
  obtain ⟨x, hxf, hxeq⟩ := List.mem_map.mp hev
  obtain ⟨hxl, hxq⟩ := List.mem_filter.mp hxf
  have hxty : x.type ≠ typeName typLogin := by simpa using hxq
  have : ev.1 = x.cb := by rw [← hxeq]
  simp only [this, decide_eq_true_eq]
  exact hc x hxl hxty

/-- Each non-login row contributes exactly its own reset-error event to the
drain list, provided callback tokens are distinct. -/
theorem drained_filter_eq_single (l : List Entry) (hnd : (l.map Entry.cb).Nodup)
    (e : Entry) (he : e ∈ l) (hty : e.type ≠ typeName typLogin) :
    ((l.filter (fun (x : Entry) => x.type ≠ typeName typLogin)).map
        (fun (x : Entry) => (x.cb, resetErr x.type x.time))).filter
      (fun ev => ev.1 = e.cb) = [(e.cb, resetErr e.type e.time)] := by
  induction l with
  | nil => exact absurd he (List.not_mem_nil e)
  | cons a l ih =>
    have hnd1 : a.cb ∉ l.map Entry.cb := (List.nodup_cons.mp hnd).1
    have hnd2 : (l.map Entry.cb).Nodup := (List.nodup_cons.mp hnd).2
    rcases List.mem_cons.mp he with hea | hel
    · subst hea
      rw [List.filter_cons, if_pos (by simpa using hty)]
      rw [List.map_cons, List.filter_cons, if_pos (by simp)]
      rw [drained_filter_eq_nil l e.cb
        (fun x hx _ hxc => hnd1 (hxc ▸ List.mem_map_of_mem Entry.cb hx))]
    · have hecb : a.cb ≠ e.cb := by
        intro hq
        exact hnd1 (hq ▸ List.mem_map_of_mem Entry.cb hel)
      rw [List.filter_cons]
      by_cases hqa : a.type ≠ typeName typLogin
      · rw [if_pos (by simpa using hqa), List.map_cons, List.filter_cons,
          if_neg (by simpa using hecb)]
        exact ih hnd2 hel
      · rw [if_neg (by simpa using hqa)]
        exact ih hnd2 hel

/-- C2, amended.  When the watchdog fires on a live socket, the reset
invokes the callback of every pending non-login row exactly once with the
reset failure reason, never invokes a login row's callback, and leaves the
table holding exactly the fresh login row pushed by the reconnect (so a
pending login row is replaced, not preserved). -/
theorem C2_reset_drain_behavior (st : ConnState) (now h : Nat)
    (hsock : st.socketLive = true) (hnd : (st.pendingReq.map Entry.cb).Nodup) :
    ∃ st', resetConnection now h st = .ok st' ∧
      st'.pendingReq = [⟨"", typeName typLogin, st.nextCb, now⟩] ∧
      (∀ e ∈ st.pendingReq, e.type ≠ typeName typLogin →
        (st'.events.drop st.events.length).filter (fun ev => ev.1 = e.cb)
          = [(e.cb, resetErr e.type e.time)]) ∧
      (∀ e ∈ st.pendingReq, e.type = typeName typLogin →
        (st'.events.drop st.events.length).filter (fun ev => ev.1 = e.cb) = []) := by
  unfold resetConnection
  rw [if_pos hsock]
  refine ⟨_, rfl, rfl, ?_, ?_⟩
  · intro e he hty
    show ((st.events ++ _).drop st.events.length).filter _ = _
    rw [List.drop_left]
    exact drained_filter_eq_single st.pendingReq hnd e he hty
  · intro e he hty
    show ((st.events ++ _).drop st.events.length).filter _ = _
    rw [List.drop_left]
    refine drained_filter_eq_nil st.pendingReq e.cb ?_
    intro x hx hxty hxc
    have hxe : x = e := List.inj_on_of_nodup_map hnd hx he hxc
    exact hxty (hxe ▸ hty)

/-- Witness for C2: the reset at time 2600 on the login+count table. -/
theorem C2_reset_drain_behavior_witness :
    ∃ st', resetConnection 2600 0 c2pre = .ok st' ∧
      st'.pendingReq = [⟨"", typeName typLogin, c2pre.nextCb, 2600⟩] ∧
      (∀ e ∈ c2pre.pendingReq, e.type ≠ typeName typLogin →
        (st'.events.drop c2pre.events.length).filter (fun ev => ev.1 = e.cb)
          = [(e.cb, resetErr e.type e.time)]) ∧
      (∀ e ∈ c2pre.pendingReq, e.type = typeName typLogin →
        (st'.events.drop c2pre.events.length).filter (fun ev => ev.1 = e.cb) = []) :=
  C2_reset_drain_behavior c2pre 2600 0 rfl (by decide)

/-- Well-formedness of the armed-timer list: handles are below the fresh
supply and distinct, generations are no newer than the current one, and no
two armed timers belong to the same generation. -/
def TimersOk (gen nh : Nat) (ts : List (Nat × Nat)) : Prop :=
  (∀ t ∈ ts, t.1 < nh ∧ t.2 ≤ gen) ∧ (ts.map Prod.fst).Nodup ∧
    ts.Pairwise (fun a b => a.2 ≠ b.2)

/-- The heartbeat-watchdog invariant: the armed timers are well formed and
the current `heartbeatTimer` handle is armed in the current generation. -/
def TimerInv (st : ConnState) : Prop :=
  TimersOk st.generation st.nextHandle st.timers ∧
  ∀ hd, st.heartbeatTimer = some hd → (hd, st.generation) ∈ st.timers

theorem timersOk_arm_new (gen nh : Nat) (ts : List (Nat × Nat))
    (hok : TimersOk gen nh ts) : TimersOk (gen + 1) (nh + 1) (ts ++ [(nh, gen + 1)]) := by
  obtain ⟨hb, hnd, hpw⟩ := hok
  refine ⟨?_, ?_, ?_⟩
  · intro t ht
    rcases List.mem_append.mp ht with h1 | h2
    · obtain ⟨ha, hg⟩ := hb t h1
      exact ⟨Nat.lt_succ_of_lt ha, Nat.le_succ_of_le hg⟩
    · simp only [List.mem_singleton] at h2
      subst h2
      exact ⟨Nat.lt_succ_self nh, Nat.le_refl _⟩
  · rw [List.map_append]
    refine List.Nodup.append hnd (by simp) ?_
    intro a ha hb'
    simp only [List.map_cons, List.map_nil, List.mem_singleton] at hb'
    subst hb'
    obtain ⟨x, hx, hxa⟩ := List.mem_map.mp ha
    exact absurd (hxa ▸ (hb x hx).1) (Nat.lt_irrefl _)
  · rw [List.pairwise_append]
    refine ⟨hpw, by simp, ?_⟩
    intro a ha b hb'
    simp only [List.mem_singleton] at hb'
    subst hb'
    have := (hb a ha).2
    omega

theorem timersOk_filter (gen nh : Nat) (ts : List (Nat × Nat)) (q : Nat × Nat → Bool)
    (hok : TimersOk gen nh ts) : TimersOk gen nh (ts.filter q) := by
  obtain ⟨hb, hnd, hpw⟩ := hok
  refine ⟨fun t ht => hb t (List.mem_of_mem_filter ht),
    hnd.sublist ((List.filter_sublist ts).map Prod.fst),
    hpw.sublist (List.filter_sublist ts)⟩

theorem pairwise_snd_countP (ts : List (Nat × Nat))
    (hpw : ts.Pairwise (fun a b => a.2 ≠ b.2)) (g : Nat) :
    ts.countP (fun t => t.2 == g) ≤ 1 := by
  induction ts with
  | nil => simp
  | cons a ts ih =>
    rw [List.countP_cons]
    have hpw' := List.pairwise_cons.mp hpw
    by_cases hg : a.2 = g
    · have h0 : ts.countP (fun t => t.2 == g) = 0 := by
        rw [List.countP_eq_zero]
        intro b hb
        simp only [beq_iff_eq]
        intro hbg
        exact (hpw'.1 b hb) (by rw [hg, hbg])
      simp [h0, hg]
    · have h1 := ih hpw'.2
      have h2 : (a.2 == g) = false := by simpa using hg
      simp [h2]
      omega

/-- A state change that leaves the timer fields alone preserves the
invariant. -/
theorem timerInv_of_fields_eq (st st' : ConnState) (hinv : TimerInv st)
    (hg : st'.generation = st.generation) (hn : st'.nextHandle = st.nextHandle)
    (ht : st'.timers = st.timers) (hh : st'.heartbeatTimer = st.heartbeatTimer) :
    TimerInv st' := by
  unfold TimerInv
  rw [hg, hn, ht, hh]
  exact hinv

theorem timerInv_initConn : TimerInv initConn := by
  refine ⟨⟨?_, ?_, ?_⟩, ?_⟩ <;> simp [initConn]

theorem timerInv_loginOp (st : ConnState) (now : Nat)
    (hok : TimersOk st.generation st.nextHandle st.timers) : TimerInv (loginOp now st) := by
  constructor
  · exact timersOk_arm_new _ _ _ hok
  · intro hd hhd
    have h2 : st.nextHandle = hd := by
      simpa [loginOp] using hhd
    subst h2
    simp [loginOp]

/-- The timer fields of the state after a heartbeat receipt with an armed
watchdog: the visited handle is cancelled and a fresh same-generation handle
is armed, whatever the sweep does. -/
theorem handleHeartbeat_timer_fields (now : Nat) (st : ConnState) (hd : Nat)
    (hhb : st.heartbeatTimer = some hd) :
    (handleHeartbeat now st).generation = st.generation
    ∧ (handleHeartbeat now st).nextHandle = st.nextHandle + 1
    ∧ (handleHeartbeat now st).timers
        = st.timers.filter (fun (t : Nat × Nat) => t.1 ≠ hd)
          ++ [(st.nextHandle, st.generation)]
    ∧ (handleHeartbeat now st).heartbeatTimer = some st.nextHandle := by
  unfold handleHeartbeat
  rw [hhb]
  dsimp only
  split <;> exact ⟨rfl, rfl, rfl, rfl⟩

theorem timerInv_handleHeartbeat (now : Nat) (st : ConnState) (hinv : TimerInv st) :
    TimerInv (handleHeartbeat now st) := by
  cases hhb : st.heartbeatTimer with
  | none =>
    have hsame : handleHeartbeat now st = st := by
      unfold handleHeartbeat
      rw [hhb]
    rw [hsame]
    exact hinv
  | some hd =>
    obtain ⟨f1, f2, f3, f4⟩ := handleHeartbeat_timer_fields now st hd hhb
    have hmem : (hd, st.generation) ∈ st.timers := hinv.2 hd hhb
    obtain ⟨⟨hb, hnd, hpw⟩, _⟩ := hinv
    have hkeep : ∀ a ∈ st.timers.filter (fun (t : Nat × Nat) => t.1 ≠ hd),
        a.2 ≠ st.generation := by
      intro a ha
      obtain ⟨hal, haq⟩ := List.mem_filter.mp ha
      have hane : a.1 ≠ hd := by simpa using haq
      have hane' : a ≠ (hd, st.generation) := fun hq => hane (by rw [hq])
      exact (hpw.forall (fun x y hxy => hxy.symm)) hal hmem hane'
    have hfl : TimersOk st.generation st.nextHandle
        (st.timers.filter (fun (t : Nat × Nat) => t.1 ≠ hd)) :=
      timersOk_filter _ _ _ _ ⟨hb, hnd, hpw⟩
    obtain ⟨hb', hnd', hpw'⟩ := hfl
    have hok2 : TimersOk st.generation (st.nextHandle + 1)
        (st.timers.filter (fun (t : Nat × Nat) => t.1 ≠ hd)
          ++ [(st.nextHandle, st.generation)]) := by
      refine ⟨?_, ?_, ?_⟩
      · intro t ht
        rcases List.mem_append.mp ht with h1 | h2
        · obtain ⟨ha, hg⟩ := hb' t h1
          exact ⟨Nat.lt_succ_of_lt ha, hg⟩
        · simp only [List.mem_singleton] at h2
          subst h2
          exact ⟨Nat.lt_succ_self _, Nat.le_refl _⟩
      · rw [List.map_append]
        refine List.Nodup.append hnd' (by simp) ?_
        intro a ha hb2
        simp only [List.map_cons, List.map_nil, List.mem_singleton] at hb2
        subst hb2
        obtain ⟨x, hx, hxa⟩ := List.mem_map.mp ha
        exact absurd (hxa ▸ (hb' x hx).1) (Nat.lt_irrefl _)
      · rw [List.pairwise_append]
        exact ⟨hpw', by simp, fun a ha b hb2 => by
          simp only [List.mem_singleton] at hb2
          subst hb2
          exact hkeep a ha⟩
    constructor
    · rw [f1, f2, f3]
      exact hok2
    · intro hd' hhd'
      rw [f4] at hhd'
      have h2 : st.nextHandle = hd' := Option.some.inj hhd'
      subst h2
      rw [f1, f3]
      simp

theorem handleCountMsg_timer_fields (v : JVal) (st : ConnState) :
    (handleCountMsg v st).generation = st.generation
    ∧ (handleCountMsg v st).nextHandle = st.nextHandle
    ∧ (handleCountMsg v st).timers = st.timers
    ∧ (handleCountMsg v st).heartbeatTimer = st.heartbeatTimer := by
  unfold handleCountMsg
  cases getMsgId v with
  | none => exact ⟨rfl, rfl, rfl, rfl⟩
  | some k =>
    dsimp only
    cases hgp : getPendingReq k st.pendingReq with
    | mk o rest => cases o <;> exact ⟨rfl, rfl, rfl, rfl⟩

theorem handleTimeMsg_timer_fields (v : JVal) (st : ConnState) :
    (handleTimeMsg v st).generation = st.generation
    ∧ (handleTimeMsg v st).nextHandle = st.nextHandle
    ∧ (handleTimeMsg v st).timers = st.timers
    ∧ (handleTimeMsg v st).heartbeatTimer = st.heartbeatTimer := by
  unfold handleTimeMsg
  cases getMsgId v with
  | none => exact ⟨rfl, rfl, rfl, rfl⟩
  | some k =>
    dsimp only
    cases hgp : getPendingReq k st.pendingReq with
    | mk o rest => cases o <;> exact ⟨rfl, rfl, rfl, rfl⟩

theorem timerInv_handleServerRecord (r : JVal) (now : Nat) (st st' : ConnState)
    (hinv : TimerInv st) (hok : handleServerRecord r now st = .ok st') : TimerInv st' := by
  unfold handleServerRecord at hok
  cases hty : getField r "type" with
  | none =>
    rw [hty] at hok
    exact (Except.ok.inj hok) ▸ hinv
  | some val =>
    rw [hty] at hok
    cases val with
    | jnull => exact (Except.ok.inj hok) ▸ hinv
    | jbool b => exact (Except.ok.inj hok) ▸ hinv
    | jnum n => exact (Except.ok.inj hok) ▸ hinv
    | jobj fs => exact (Except.ok.inj hok) ▸ hinv
    | jstr t =>
      dsimp only at hok
      by_cases h1 : t = typeName typLogin
      · rw [if_pos h1] at hok
        unfold handleLoginMsg at hok
        cases hpq : st.pendingReq with
        | nil => rw [hpq] at hok; exact absurd hok (by simp)
        | cons e rest =>
          cases rest with
          | cons e2 rest2 => rw [hpq] at hok; exact absurd hok (by simp)
          | nil =>
            rw [hpq] at hok
            dsimp only at hok
            by_cases hety : e.type = typeName typLogin
            · rw [if_pos hety] at hok
              have hst : st' = invokeLoginCb .jnull e.cb st := (Except.ok.inj hok).symm
              rw [hst]
              exact timerInv_of_fields_eq st _ hinv rfl rfl rfl rfl
            · rw [if_neg hety] at hok
              exact absurd hok (by simp)
      · rw [if_neg h1] at hok
        by_cases h2 : t = typeName typHeartbeat
        · rw [if_pos h2] at hok
          have hst : st' = handleHeartbeat now st := (Except.ok.inj hok).symm
          rw [hst]
          exact timerInv_handleHeartbeat now st hinv
        · rw [if_neg h2] at hok
          by_cases h3 : t = typeName typMsg
          · rw [if_pos h3] at hok
            cases hv : getField r "msg" with
            | none => rw [hv] at hok; exact absurd hok (by simp)
            | some v =>
              rw [hv] at hok
              cases v with
              | jnull => exact absurd hok (by simp)
              | jbool b =>
                dsimp only at hok
                by_cases hc : (getField (JVal.jbool b) "count").isSome
                · rw [if_pos hc] at hok
                  have hst : st' = handleCountMsg (JVal.jbool b) st := (Except.ok.inj hok).symm
                  rw [hst]
                  obtain ⟨f1, f2, f3, f4⟩ := handleCountMsg_timer_fields (JVal.jbool b) st
                  exact timerInv_of_fields_eq st _ hinv f1 f2 f3 f4
                · rw [if_neg hc] at hok
                  by_cases htm : (getField (JVal.jbool b) "time").isSome
                  · rw [if_pos htm] at hok
                    have hst : st' = handleTimeMsg (JVal.jbool b) st := (Except.ok.inj hok).symm
                    rw [hst]
                    obtain ⟨f1, f2, f3, f4⟩ := handleTimeMsg_timer_fields (JVal.jbool b) st
                    exact timerInv_of_fields_eq st _ hinv f1 f2 f3 f4
                  · rw [if_neg htm] at hok
                    exact (Except.ok.inj hok) ▸ hinv
              | jnum n =>
                dsimp only at hok
                by_cases hc : (getField (JVal.jnum n) "count").isSome
                · rw [if_pos hc] at hok
                  have hst : st' = handleCountMsg (JVal.jnum n) st := (Except.ok.inj hok).symm
                  rw [hst]
                  obtain ⟨f1, f2, f3, f4⟩ := handleCountMsg_timer_fields (JVal.jnum n) st
                  exact timerInv_of_fields_eq st _ hinv f1 f2 f3 f4
                · rw [if_neg hc] at hok
                  by_cases htm : (getField (JVal.jnum n) "time").isSome
                  · rw [if_pos htm] at hok
                    have hst : st' = handleTimeMsg (JVal.jnum n) st := (Except.ok.inj hok).symm
                    rw [hst]
                    obtain ⟨f1, f2, f3, f4⟩ := handleTimeMsg_timer_fields (JVal.jnum n) st
                    exact timerInv_of_fields_eq st _ hinv f1 f2 f3 f4
                  · rw [if_neg htm] at hok
                    exact (Except.ok.inj hok) ▸ hinv
              | jstr s =>
                dsimp only at hok
                by_cases hc : (getField (JVal.jstr s) "count").isSome
                · rw [if_pos hc] at hok
                  have hst : st' = handleCountMsg (JVal.jstr s) st := (Except.ok.inj hok).symm
                  rw [hst]
                  obtain ⟨f1, f2, f3, f4⟩ := handleCountMsg_timer_fields (JVal.jstr s) st
                  exact timerInv_of_fields_eq st _ hinv f1 f2 f3 f4
                · rw [if_neg hc] at hok
                  by_cases htm : (getField (JVal.jstr s) "time").isSome
                  · rw [if_pos htm] at hok
                    have hst : st' = handleTimeMsg (JVal.jstr s) st := (Except.ok.inj hok).symm
                    rw [hst]
                    obtain ⟨f1, f2, f3, f4⟩ := handleTimeMsg_timer_fields (JVal.jstr s) st
                    exact timerInv_of_fields_eq st _ hinv f1 f2 f3 f4
                  · rw [if_neg htm] at hok
                    exact (Except.ok.inj hok) ▸ hinv
              | jobj fs =>
                dsimp only at hok
                by_cases hc : (getField (JVal.jobj fs) "count").isSome
                · rw [if_pos hc] at hok
                  have hst : st' = handleCountMsg (JVal.jobj fs) st := (Except.ok.inj hok).symm
                  rw [hst]
                  obtain ⟨f1, f2, f3, f4⟩ := handleCountMsg_timer_fields (JVal.jobj fs) st
                  exact timerInv_of_fields_eq st _ hinv f1 f2 f3 f4
                · rw [if_neg hc] at hok
                  by_cases htm : (getField (JVal.jobj fs) "time").isSome
                  · rw [if_pos htm] at hok
                    have hst : st' = handleTimeMsg (JVal.jobj fs) st := (Except.ok.inj hok).symm
                    rw [hst]
                    obtain ⟨f1, f2, f3, f4⟩ := handleTimeMsg_timer_fields (JVal.jobj fs) st
                    exact timerInv_of_fields_eq st _ hinv f1 f2 f3 f4
                  · rw [if_neg htm] at hok
                    exact (Except.ok.inj hok) ▸ hinv
          · rw [if_neg h3] at hok
            exact (Except.ok.inj hok) ▸ hinv

theorem timerInv_resetConnection (now h : Nat) (st st' : ConnState) (hinv : TimerInv st)
    (hok : resetConnection now h st = .ok st') : TimerInv st' := by
  unfold resetConnection at hok
  dsimp only at hok
  split at hok
  · have hst : st' = loginOp now
        { st with
          timers := st.timers.filter (fun (t : Nat × Nat) => t.1 ≠ h)
          loggedIn := false, reset := true
          events := st.events ++
            (st.pendingReq.filter (fun (e : Entry) => e.type ≠ typeName typLogin)).map
              (fun (e : Entry) => (e.cb, resetErr e.type e.time))
          socketLive := false } := (Except.ok.inj hok).symm
    subst hst
    exact timerInv_loginOp _ now (timersOk_filter _ _ _ _ hinv.1)
  · exact absurd hok (by simp)

/-- C5, amended.  In every reachable state, at most one heartbeat deadline of
any given connection generation is outstanding: each heartbeat cancels the
current deadline before arming its replacement in the same generation, and a
firing consumes its timer and arms exactly one deadline of the next
generation.  (Across generations two timers can coexist, since arming on
(re)login does not cancel a prior alarm: see the counterexample.) -/
theorem C5_per_generation_unique_deadline (st : ConnState) (hr : Reachable st) (g : Nat) :
    st.timers.countP (fun t => t.2 == g) ≤ 1 := by
  have hinv : TimerInv st := by
    induction hr with
    | init => exact timerInv_initConn
    | login st now hst hpre ih => exact timerInv_loginOp st now ih.1
    | logout st hst ih => exact timerInv_of_fields_eq st _ ih rfl rfl rfl rfl
    | send st ty now hst hlog ih => exact timerInv_of_fields_eq st _ ih rfl rfl rfl rfl
    | recv st st' r now hst hok ih => exact timerInv_handleServerRecord r now st st' ih hok
    | fire st st' hh gg now hst hmem hok ih => exact timerInv_resetConnection now hh st st' ih hok
  exact pairwise_snd_countP st.timers hinv.1.2.2 g

/-- Witness for C5 at the freshly logged-in state and generation 1. -/
theorem C5_per_generation_unique_deadline_witness :
    (loginOp 0 initConn).timers.countP (fun t => t.2 == 1) ≤ 1 :=
  C5_per_generation_unique_deadline (loginOp 0 initConn)
    (.login _ 0 .init (by simp [initConn])) 1

end Challenge
